import Mathlib

/-!
Verification of the `ast-cell-test` syntax-tree engine.

The repository contains two structurally equivalent realisations of the same
design:

* an arena/handle variant (`src/main.rs`, `src/print.rs`, `src/ast.rs`):
  every node lives in a `Vec<AstRef>` and is addressed by a `NodeId` index;
* a GhostCell variant (`src/parser.rs`, `src/traverse.rs`, `src/cell.rs`):
  nodes are allocated in a bump arena, parent back-links are slot-precise
  tags (`ExpressionParent::BinaryExpressionLeft(ptr)` etc.).

Both are embedded below.  Machine integers index finite vectors only, so
`Nat` is used directly; Rust panics (index out of bounds, failed
`as_*_unchecked` narrowing, `unreachable!`) are modelled as `Option.none`.
-/

/-! ## Arena variant: data model (src/ast.rs) -/

/-- `BinaryOperator` from src/ast.rs. -/
inductive BinaryOperator
  | Equality
  | StrictEquality
deriving DecidableEq, Repr

/-- `UnaryOperator` from src/ast.rs. -/
inductive UnaryOperator
  | UnaryNegation
  | UnaryPlus
  | LogicalNot
  | BitwiseNot
  | Typeof
  | Void
  | Delete
deriving DecidableEq, Repr

/-- `NodeId` from src/ast.rs: a plain index (the `PhantomData` lifetime is a
compile-time-only marker carrying no data). -/
abbrev NodeId := Nat

/-- `Statement` from src/ast.rs. -/
inductive Statement
  | ExpressionStatement (expr : NodeId)
deriving DecidableEq, Repr

/-- `Expression` from src/ast.rs: each variant wraps a handle to the node
holding the payload. -/
inductive Expression
  | StringLiteral (id : NodeId)
  | Identifier (id : NodeId)
  | BinaryExpression (id : NodeId)
  | UnaryExpression (id : NodeId)
deriving DecidableEq, Repr

/-- `IdentifierReference` from src/ast.rs. -/
structure IdentifierReference where
  name : String
  parent : NodeId
deriving DecidableEq, Repr

/-- `StringLiteral` payload struct from src/ast.rs. -/
structure StringLiteral where
  value : String
  parent : NodeId
deriving DecidableEq, Repr

/-- `BinaryExpression` payload struct from src/ast.rs. -/
structure BinaryExpression where
  left : NodeId
  operator : BinaryOperator
  right : NodeId
  parent : NodeId
deriving DecidableEq, Repr

/-- `UnaryExpression` payload struct from src/ast.rs. -/
structure UnaryExpression where
  operator : UnaryOperator
  argument : NodeId
  parent : NodeId
deriving DecidableEq, Repr

/-- `AstType` from src/ast.rs: the kind discriminant. -/
inductive AstType
  | Stmt
  | Expr
  | Ident
  | Str
  | Binary
  | Unary
deriving DecidableEq, Repr

/-- `AstKind` from src/ast.rs (`not(feature = "unsafe")` shape): the checked
tagged union over the six node categories. -/
inductive AstKind
  | Stmt (s : Statement)
  | Expr (e : Expression)
  | Ident (i : IdentifierReference)
  | Str (s : StringLiteral)
  | Binary (b : BinaryExpression)
  | Unary (u : UnaryExpression)
deriving DecidableEq, Repr

/-- `AstRef` from src/ast.rs: a generic node holding one `AstKind`. -/
structure AstRef where
  inner : AstKind
deriving DecidableEq, Repr

namespace AstRef

/-- `AstRef::ast_type` (src/ast.rs): the discriminant of the inner kind. -/
def ast_type (r : AstRef) : AstType :=
  match r.inner with
  | .Stmt _ => .Stmt
  | .Expr _ => .Expr
  | .Ident _ => .Ident
  | .Str _ => .Str
  | .Binary _ => .Binary
  | .Unary _ => .Unary

/-- `AstRef::is` (src/ast.rs). -/
def is (r : AstRef) (ty : AstType) : Bool :=
  r.ast_type = ty

/-- `AstRef::as_stmt_unchecked` (src/ast.rs): `none` models the panic on a
kind mismatch. -/
def as_stmt_unchecked (r : AstRef) : Option Statement :=
  match r.inner with
  | .Stmt s => some s
  | _ => none

/-- `AstRef::as_expr_unchecked` (src/ast.rs). -/
def as_expr_unchecked (r : AstRef) : Option Expression :=
  match r.inner with
  | .Expr e => some e
  | _ => none

/-- `AstRef::as_ident_unchecked` (src/ast.rs). -/
def as_ident_unchecked (r : AstRef) : Option IdentifierReference :=
  match r.inner with
  | .Ident i => some i
  | _ => none

/-- `AstRef::as_str_unchecked` (src/ast.rs). -/
def as_str_unchecked (r : AstRef) : Option StringLiteral :=
  match r.inner with
  | .Str s => some s
  | _ => none

/-- `AstRef::as_binary_unchecked` (src/ast.rs). -/
def as_binary_unchecked (r : AstRef) : Option BinaryExpression :=
  match r.inner with
  | .Binary b => some b
  | _ => none

/-- `AstRef::as_unary_unchecked` (src/ast.rs). -/
def as_unary_unchecked (r : AstRef) : Option UnaryExpression :=
  match r.inner with
  | .Unary u => some u
  | _ => none

/-- `AstRef::as_stmt` (src/ast.rs): checked narrowing, guarded by `is`. -/
def as_stmt (r : AstRef) : Option Statement :=
  if r.is .Stmt then r.as_stmt_unchecked else none

/-- `AstRef::as_expr` (src/ast.rs). -/
def as_expr (r : AstRef) : Option Expression :=
  if r.is .Expr then r.as_expr_unchecked else none

/-- `AstRef::as_ident` (src/ast.rs). -/
def as_ident (r : AstRef) : Option IdentifierReference :=
  if r.is .Ident then r.as_ident_unchecked else none

/-- `AstRef::as_str` (src/ast.rs). -/
def as_str (r : AstRef) : Option StringLiteral :=
  if r.is .Str then r.as_str_unchecked else none

/-- `AstRef::as_binary` (src/ast.rs). -/
def as_binary (r : AstRef) : Option BinaryExpression :=
  if r.is .Binary then r.as_binary_unchecked else none

/-- `AstRef::as_unary` (src/ast.rs). -/
def as_unary (r : AstRef) : Option UnaryExpression :=
  if r.is .Unary then r.as_unary_unchecked else none

end AstRef

/-- `Nodes` from src/main.rs: the arena, a growable vector of `AstRef`. -/
abbrev Nodes := List AstRef

/-- `Nodes::get_node` (src/main.rs): vector indexing; `none` models the
index-out-of-bounds panic. -/
def Nodes.get_node (ns : Nodes) (id : NodeId) : Option AstRef :=
  ns.get? id

/-- The parent patch `nodes[i].as_ident_mut_unchecked().parent = p`
(src/main.rs line 76-78). -/
def Nodes.patch_ident_parent (ns : Nodes) (id : NodeId) (p : NodeId) : Nodes :=
  match ns.get? id with
  | some ⟨.Ident i⟩ => ns.set id ⟨.Ident { i with parent := p }⟩
  | _ => ns

/-- The parent patch `nodes[i].as_unary_mut_unchecked().parent = p`
(src/main.rs line 97). -/
def Nodes.patch_unary_parent (ns : Nodes) (id : NodeId) (p : NodeId) : Nodes :=
  match ns.get? id with
  | some ⟨.Unary u⟩ => ns.set id ⟨.Unary { u with parent := p }⟩
  | _ => ns

/-- The parent patch `nodes[i].as_str_mut_unchecked().parent = p`
(src/main.rs line 98). -/
def Nodes.patch_str_parent (ns : Nodes) (id : NodeId) (p : NodeId) : Nodes :=
  match ns.get? id with
  | some ⟨.Str s⟩ => ns.set id ⟨.Str { s with parent := p }⟩
  | _ => ns

/-- The parent patch `nodes[i].as_binary_mut_unchecked().parent = p`
(src/main.rs line 102). -/
def Nodes.patch_binary_parent (ns : Nodes) (id : NodeId) (p : NodeId) : Nodes :=
  match ns.get? id with
  | some ⟨.Binary b⟩ => ns.set id ⟨.Binary { b with parent := p }⟩
  | _ => ns

/-- `parse` from src/main.rs lines 48-108: builds the hard-coded AST for
`typeof foo === 'object'`, pushing children before parents and patching each
child's `parent` handle once the parent handle is known.  `NodeId::default()`
is index 0. -/
def parse : Nodes × NodeId :=
  let nodes : Nodes := []
  -- `foo`
  let nodes : Nodes := nodes ++ [⟨.Ident { name := "foo", parent := 0 }⟩]
  let ident_id : NodeId := nodes.length - 1
  let nodes : Nodes := nodes ++ [⟨.Expr (.Identifier ident_id)⟩]
  let ident_expr_id : NodeId := nodes.length - 1
  -- `typeof foo`
  let nodes : Nodes := nodes ++ [⟨.Unary { operator := .Typeof, argument := ident_expr_id, parent := 0 }⟩]
  let unary_id : NodeId := nodes.length - 1
  let nodes : Nodes := nodes ++ [⟨.Expr (.UnaryExpression unary_id)⟩]
  let unary_expr_id : NodeId := nodes.length - 1
  let nodes : Nodes := Nodes.patch_ident_parent nodes ident_id unary_id
  -- `'object'`
  let nodes : Nodes := nodes ++ [⟨.Str { value := "object", parent := 0 }⟩]
  let str_id : NodeId := nodes.length - 1
  let nodes : Nodes := nodes ++ [⟨.Expr (.StringLiteral str_id)⟩]
  let str_expr_id : NodeId := nodes.length - 1
  -- `typeof foo === 'object'` (as expression)
  let nodes : Nodes := nodes ++
    [⟨.Binary { operator := .StrictEquality, left := unary_expr_id, right := str_expr_id, parent := 0 }⟩]
  let binary_id : NodeId := nodes.length - 1
  let nodes : Nodes := Nodes.patch_unary_parent nodes unary_id binary_id
  let nodes : Nodes := Nodes.patch_str_parent nodes str_id binary_id
  let nodes : Nodes := nodes ++ [⟨.Expr (.BinaryExpression binary_id)⟩]
  let expr_id : NodeId := nodes.length - 1
  let nodes : Nodes := Nodes.patch_binary_parent nodes binary_id expr_id
  -- `typeof foo === 'object'` (as statement)
  let nodes : Nodes := nodes ++ [⟨.Stmt (.ExpressionStatement expr_id)⟩]
  let stmt_id : NodeId := nodes.length - 1
  (nodes, stmt_id)

/-- The swap `std::mem::swap(&mut parent.left, &mut parent.right)` performed
through `get_node_mut(parent_id).as_binary_mut_unchecked()` (src/main.rs
lines 139-141). -/
def Nodes.swap_binary (ns : Nodes) (id : NodeId) : Option Nodes :=
  match ns.get? id with
  | some ⟨.Binary b⟩ =>
    some (ns.set id ⟨.Binary { b with left := b.right, right := b.left }⟩)
  | _ => none

/-- Which visitor method of the arena-variant `Visit` trait is executing. -/
inductive VisitTarget
  | stmt
  | expr
  | binary
  | unary
deriving DecidableEq, Repr

/-- The `TransformTypeof` traversal over the arena.

Modelled from the spec: the `Visit` trait for the arena variant is not under
src/ (src/visit.rs holds the GhostCell variant of the trait); its default
walks follow spec section 4.5 — `ExpressionStatement` descends into its
expression, `BinaryExpression` into left then right, `UnaryExpression` into
its argument, with the identifier/string-literal hooks doing nothing.  The
`visit_unary_expression` hook itself is translated from src/main.rs lines
120-145: on a `Typeof` unary whose parent node is a binary expression with
an equality operator, if `get_node(binary.right).as_expr()` is `Some`, swap
the binary's left and right, then walk into the argument.  Early `return`s
in the hook skip the walk; `none` models a panic, and fuel exhaustion is
also `none`. -/
def ttRun : Nat → VisitTarget → Nodes → NodeId → Option Nodes
  | 0, _, _, _ => none
  | fuel+1, .stmt, ns, id =>
    match (ns.get_node id).bind AstRef.as_stmt with
    | some (.ExpressionStatement e) => ttRun fuel .expr ns e
    | none => none
  | fuel+1, .expr, ns, id =>
    match (ns.get_node id).bind AstRef.as_expr with
    | some (.Identifier _) => some ns
    | some (.StringLiteral _) => some ns
    | some (.BinaryExpression b) => ttRun fuel .binary ns b
    | some (.UnaryExpression u) => ttRun fuel .unary ns u
    | none => none
  | fuel+1, .binary, ns, id =>
    match (ns.get_node id).bind AstRef.as_binary with
    | some b => (ttRun fuel .expr ns b.left).bind fun ns1 => ttRun fuel .expr ns1 b.right
    | none => none
  | fuel+1, .unary, ns, id =>
    match (ns.get_node id).bind AstRef.as_unary_unchecked with
    | none => none
    | some node =>
      if node.operator ≠ .Typeof then some ns
      else
        match ns.get_node node.parent with
        | none => none
        | some pr =>
          match pr.as_binary with
          | none => some ns
          | some binary =>
            if binary.operator = .Equality ∨ binary.operator = .StrictEquality then
              match ns.get_node binary.right with
              | none => none
              | some rr =>
                match (if rr.as_expr.isSome then ns.swap_binary node.parent else some ns) with
                | none => none
                | some ns1 => ttRun fuel .expr ns1 node.argument
            else some ns

/-- `TransformTypeof::build` (src/main.rs lines 113-117): runs the visitor
from the root statement. -/
def TransformTypeof.build (fuel : Nat) (ns : Nodes) (id : NodeId) : Option Nodes :=
  ttRun fuel .stmt ns id

/-- Which visitor method of `Printer` is executing (src/print.rs). -/
inductive PrintTarget
  | stmt
  | expr
  | ident
  | strLit
  | unary
  | binary
deriving DecidableEq, Repr

/-- The `Printer` traversal (src/print.rs): a read-only visitor producing the
rendered text.  The identifier, string-literal, unary and binary hooks are
translated from src/print.rs lines 23-74; the statement/expression dispatch
is the default walk (spec section 4.5).  `none` models `unreachable!` on a
narrowing failure, an out-of-bounds handle, or fuel exhaustion. -/
def printRun : Nat → PrintTarget → Nodes → NodeId → Option String
  | 0, _, _, _ => none
  | fuel+1, .stmt, ns, id =>
    match (ns.get_node id).bind AstRef.as_stmt with
    | some (.ExpressionStatement e) => printRun fuel .expr ns e
    | none => none
  | fuel+1, .expr, ns, id =>
    match (ns.get_node id).bind AstRef.as_expr with
    | some (.Identifier i) => printRun fuel .ident ns i
    | some (.StringLiteral s) => printRun fuel .strLit ns s
    | some (.BinaryExpression b) => printRun fuel .binary ns b
    | some (.UnaryExpression u) => printRun fuel .unary ns u
    | none => none
  | _+1, .ident, ns, id =>
    match (ns.get_node id).bind AstRef.as_ident with
    | some node => some node.name
    | none => none
  | _+1, .strLit, ns, id =>
    match (ns.get_node id).bind AstRef.as_str with
    | some node => some ("'" ++ node.value ++ "'")
    | none => none
  | fuel+1, .unary, ns, id =>
    match (ns.get_node id).bind AstRef.as_unary with
    | some node =>
      let op : String :=
        match node.operator with
        | .UnaryNegation => "-"
        | .UnaryPlus => "+"
        | .LogicalNot => "!"
        | .BitwiseNot => "~"
        | .Typeof => "typeof "
        | .Void => "void "
        | .Delete => "delete "
      (printRun fuel .expr ns node.argument).map (fun s => op ++ s)
    | none => none
  | fuel+1, .binary, ns, id =>
    match (ns.get_node id).bind AstRef.as_binary with
    | some node =>
      (printRun fuel .expr ns node.left).bind fun sl =>
        (printRun fuel .expr ns node.right).map fun sr =>
          sl ++ " " ++
            (match node.operator with
             | .Equality => "=="
             | .StrictEquality => "===") ++ " " ++ sr
    | none => none

/-- `Printer::print` (src/print.rs lines 9-15). -/
def Printer.print (fuel : Nat) (stmt : NodeId) (ns : Nodes) : Option String :=
  printRun fuel .stmt ns stmt

/-! ## GhostCell variant: slot-precise parent tags (src/parser.rs, src/traverse.rs)

The AST type definitions this variant uses (`ExpressionParent`,
`ExpressionStatement`, `Program`, the `Traversable*` mirrors) are not under
src/; only their callers are (src/parser.rs builds the tree, src/traverse.rs
walks it).  They are modelled here from the spec (sections 3 and 4.4) and
from the field accesses in those two files, with the arena-of-handles
representation the spec's design notes prescribe: raw node pointers become
indices into a node list. -/

namespace Ghost

/-- Modelled from the spec: the parent slot tag for expressions
(`ExpressionParent` used by src/parser.rs, its definition missing from
src/): a closed union naming the parent node and the field occupied. -/
inductive ExpressionParent
  | None
  | ExpressionStatement (id : Nat)
  | BinaryExpressionLeft (id : Nat)
  | BinaryExpressionRight (id : Nat)
  | UnaryExpression (id : Nat)
deriving DecidableEq, Repr

/-- Modelled from the spec: the parent slot tag for statements
(`StatementParent` used by src/parser.rs, its definition missing from
src/). -/
inductive StatementParent
  | None
  | Program (id : Nat)
deriving DecidableEq, Repr

/-- Modelled from the spec: `Expression` of the GhostCell variant (used by
src/parser.rs and src/traverse.rs, its definition missing from src/).  Each
variant holds the handle of the payload node directly. -/
inductive Expression
  | Identifier (id : Nat)
  | StringLiteral (id : Nat)
  | BinaryExpression (id : Nat)
  | UnaryExpression (id : Nat)
deriving DecidableEq, Repr

/-- Modelled from the spec: `Statement` of the GhostCell variant. -/
inductive Statement
  | ExpressionStatement (id : Nat)
deriving DecidableEq, Repr

/-- The payload node handle an expression points at. -/
def Expression.target : Expression → Nat
  | .Identifier id => id
  | .StringLiteral id => id
  | .BinaryExpression id => id
  | .UnaryExpression id => id

/-- Whether the expression is a string literal (the transform's guard on the
right operand, spec section 4.6). -/
def Expression.isStringLiteral : Expression → Bool
  | .StringLiteral _ => true
  | _ => false

/-- The payload node handle a statement points at. -/
def Statement.target : Statement → Nat
  | .ExpressionStatement id => id

/-- Modelled from the spec: `IdentifierReference` of the GhostCell variant
(fields as used by src/parser.rs). -/
structure IdentifierReference where
  name : String
  parent : ExpressionParent
deriving DecidableEq, Repr

/-- Modelled from the spec: `StringLiteral` of the GhostCell variant. -/
structure StringLiteral where
  value : String
  parent : ExpressionParent
deriving DecidableEq, Repr

/-- Modelled from the spec: `BinaryExpression` of the GhostCell variant. -/
structure BinaryExpression where
  left : Expression
  operator : BinaryOperator
  right : Expression
  parent : ExpressionParent
deriving DecidableEq, Repr

/-- Modelled from the spec: `UnaryExpression` of the GhostCell variant. -/
structure UnaryExpression where
  operator : UnaryOperator
  argument : Expression
  parent : ExpressionParent
deriving DecidableEq, Repr

/-- Modelled from the spec: `ExpressionStatement` of the GhostCell variant. -/
structure ExpressionStatement where
  expression : Expression
  parent : StatementParent
deriving DecidableEq, Repr

/-- Modelled from the spec: `Program` of the GhostCell variant (field `body`
as used by src/parser.rs). -/
structure Program where
  body : List Statement
deriving DecidableEq, Repr

/-- One allocated node of the GhostCell variant's arena. -/
inductive Node
  | Ident (i : IdentifierReference)
  | Str (s : StringLiteral)
  | Binary (b : BinaryExpression)
  | Unary (u : UnaryExpression)
  | ExprStmt (e : ExpressionStatement)
  | Prog (p : Program)
deriving DecidableEq, Repr

/-- The arena owning all nodes of one tree: node pointers become indices. -/
abbrev Arena := List Node

/-- The parent patch writing an expression node's `parent` tag once the
parent is allocated (src/parser.rs lines 27-29, 46-51, 60-62). -/
def setExprParent (a : Arena) (id : Nat) (p : ExpressionParent) : Arena :=
  match a.get? id with
  | some (.Ident i) => a.set id (.Ident { i with parent := p })
  | some (.Str s) => a.set id (.Str { s with parent := p })
  | some (.Binary b) => a.set id (.Binary { b with parent := p })
  | some (.Unary u) => a.set id (.Unary { u with parent := p })
  | _ => a

/-- The parent patch writing a statement node's `parent` tag
(src/parser.rs lines 72-74). -/
def setStmtParent (a : Arena) (id : Nat) (p : StatementParent) : Arena :=
  match a.get? id with
  | some (.ExprStmt e) => a.set id (.ExprStmt { e with parent := p })
  | _ => a

/-- `parse` from src/parser.rs: builds the AST for `typeof foo === 'object'`
with slot-precise back-links, allocating children before parents and
patching each child's tag as soon as the parent exists.  Allocation order:
identifier 0, unary 1, string 2, binary 3, expression statement 4,
program 5.  Returns the arena and the program's handle. -/
def parse : Arena × Nat :=
  let a : Arena := []
  -- `foo`
  let a : Arena := a ++ [.Ident { name := "foo", parent := .None }]
  -- `typeof foo`
  let a : Arena := a ++ [.Unary { operator := .Typeof, argument := .Identifier 0, parent := .None }]
  let a : Arena := setExprParent a 0 (.UnaryExpression 1)
  -- `'object'`
  let a : Arena := a ++ [.Str { value := "object", parent := .None }]
  -- `typeof foo === 'object'` (as expression)
  let a : Arena := a ++
    [.Binary { operator := .StrictEquality, left := .UnaryExpression 1, right := .StringLiteral 2, parent := .None }]
  let a : Arena := setExprParent a 1 (.BinaryExpressionLeft 3)
  let a : Arena := setExprParent a 2 (.BinaryExpressionRight 3)
  -- `typeof foo === 'object'` (as expression statement)
  let a : Arena := a ++ [.ExprStmt { expression := .BinaryExpression 3, parent := .None }]
  let a : Arena := setExprParent a 3 (.ExpressionStatement 4)
  -- `typeof foo === 'object'` (as program)
  let a : Arena := a ++ [.Prog { body := [.ExpressionStatement 4] }]
  let a : Arena := setStmtParent a 4 (.Program 5)
  (a, 5)

/-- The handles held by the owned child fields of node `id` (parent tags are
non-owning back-edges and are not followed). -/
def childHandles (a : Arena) (id : Nat) : List Nat :=
  match a.get? id with
  | some (.Ident _) => []
  | some (.Str _) => []
  | some (.Binary b) => [b.left.target, b.right.target]
  | some (.Unary u) => [u.argument.target]
  | some (.ExprStmt e) => [e.expression.target]
  | some (.Prog p) => p.body.map Statement.target
  | none => []

/-- The handles reachable from `root` by following owned child fields. -/
inductive Reaches (a : Arena) (root : Nat) : Nat → Prop
  | refl : Reaches a root root
  | step {x y : Nat} : Reaches a root x → y ∈ childHandles a x → Reaches a root y

/-- Modelled from the spec (section 4.6): the structural edit of
`TransformTypeof` in the GhostCell variant (the transformer itself is not
under src/): swap the binary expression's `left` and `right` fields and
correspondingly swap the two operands' `parent` tags so each reports the
slot it now occupies. -/
def typeofEdit (a : Arena) (b : Nat) : Arena :=
  match a.get? b with
  | some (.Binary bin) =>
    let a1 := a.set b (.Binary { bin with left := bin.right, right := bin.left })
    let a2 := setExprParent a1 bin.left.target (.BinaryExpressionRight b)
    setExprParent a2 bin.right.target (.BinaryExpressionLeft b)
  | _ => a

/-- Which `Traverse` method is executing (src/traverse.rs). -/
inductive Target
  | stmt (s : Statement)
  | exprStmt (id : Nat)
  | expr (e : Expression)
  | binary (id : Nat)
  | unary (id : Nat)
deriving DecidableEq, Repr

/-- The `TransformTypeof` traversal in the GhostCell variant.

The walk order is translated from the `Traverse` trait defaults in
src/traverse.rs: a statement dispatches to its expression statement, which
visits its expression; a binary expression reads its node once and visits
`left` then `right` (src/traverse.rs lines 142-151); a unary expression's
hook runs, then the walk descends into the argument.  The unary hook is
modelled from the spec (section 4.6), the transformer being absent from
src/: on a `Typeof` unary whose parent tag is `BinaryExpression.left` of a
binary with operator `Equality` or `StrictEquality` and a `StringLiteral`
right operand, perform `typeofEdit`.  `none` models a kind-mismatch panic
or fuel exhaustion. -/
def run : Nat → Target → Arena → Option Arena
  | 0, _, _ => none
  | fuel+1, .stmt (.ExpressionStatement id), a => run fuel (.exprStmt id) a
  | fuel+1, .exprStmt id, a =>
    match a.get? id with
    | some (.ExprStmt es) => run fuel (.expr es.expression) a
    | _ => none
  | fuel+1, .expr e, a =>
    match e with
    | .Identifier _ => some a
    | .StringLiteral _ => some a
    | .BinaryExpression b => run fuel (.binary b) a
    | .UnaryExpression u => run fuel (.unary u) a
  | fuel+1, .binary id, a =>
    match a.get? id with
    | some (.Binary bin) => (run fuel (.expr bin.left) a).bind (run fuel (.expr bin.right))
    | _ => none
  | fuel+1, .unary id, a =>
    match a.get? id with
    | some (.Unary u) =>
      let a1 :=
        if u.operator = .Typeof then
          match u.parent with
          | .BinaryExpressionLeft b =>
            match a.get? b with
            | some (.Binary bin) =>
              if (bin.operator = .Equality ∨ bin.operator = .StrictEquality)
                  ∧ bin.right.isStringLiteral then
                typeofEdit a b
              else a
            | _ => a
          | _ => a
        else a
      run fuel (.expr u.argument) a1
    | _ => none

/-- Whether one expression node's parent tag resolves to a parent node whose
named field holds this node's handle. -/
def exprParentOk (a : Arena) (i : Nat) : ExpressionParent → Bool
  | .None => true
  | .ExpressionStatement p =>
    match a.get? p with
    | some (.ExprStmt es) => es.expression.target == i
    | _ => false
  | .BinaryExpressionLeft p =>
    match a.get? p with
    | some (.Binary b) => b.left.target == i
    | _ => false
  | .BinaryExpressionRight p =>
    match a.get? p with
    | some (.Binary b) => b.right.target == i
    | _ => false
  | .UnaryExpression p =>
    match a.get? p with
    | some (.Unary u) => u.argument.target == i
    | _ => false

/-- Whether one statement node's parent tag resolves to a parent whose named
field holds this node's handle. -/
def stmtParentOk (a : Arena) (i : Nat) : StatementParent → Bool
  | .None => true
  | .Program p =>
    match a.get? p with
    | some (.Prog pr) => pr.body.contains (.ExpressionStatement i)
    | _ => false

/-- Whether node `i`'s parent tag names exactly the slot that references it. -/
def Node.parentOk (a : Arena) (i : Nat) : Node → Bool
  | .Ident n => exprParentOk a i n.parent
  | .Str n => exprParentOk a i n.parent
  | .Binary n => exprParentOk a i n.parent
  | .Unary n => exprParentOk a i n.parent
  | .ExprStmt n => stmtParentOk a i n.parent
  | .Prog _ => true

/-- Parent consistency (spec section 8): for every non-root node, resolving
its parent tag to the parent node and reading the field the tag names yields
a handle equal to the node itself. -/
def parentConsistent (a : Arena) : Bool :=
  (List.range a.length).all fun i =>
    match a.get? i with
    | some n => n.parentOk a i
    | none => true

end Ghost

/-! ## Traversable view (src/traverse.rs, spec section 4.4)

`transform` reinterprets the owning tree as `Traversable*` types of identical
layout (the transmute at src/traverse.rs line 39).  The `Traversable*` type
definitions are not under src/; they are modelled from the spec: mirrors of
the owning types with identical discriminants and field order. -/

/-- Modelled from the spec: `TraversableExpressionParent`, the traversable
mirror of `Ghost.ExpressionParent`. -/
inductive TraversableExpressionParent
  | None
  | ExpressionStatement (id : Nat)
  | BinaryExpressionLeft (id : Nat)
  | BinaryExpressionRight (id : Nat)
  | UnaryExpression (id : Nat)
deriving DecidableEq, Repr

/-- Modelled from the spec: `TraversableStatementParent`. -/
inductive TraversableStatementParent
  | None
  | Program (id : Nat)
deriving DecidableEq, Repr

/-- Modelled from the spec: `TraversableExpression` (src/traverse.rs). -/
inductive TraversableExpression
  | Identifier (id : Nat)
  | StringLiteral (id : Nat)
  | BinaryExpression (id : Nat)
  | UnaryExpression (id : Nat)
deriving DecidableEq, Repr

/-- Modelled from the spec: `TraversableStatement` (src/traverse.rs). -/
inductive TraversableStatement
  | ExpressionStatement (id : Nat)
deriving DecidableEq, Repr

/-- Modelled from the spec: `TraversableIdentifierReference`. -/
structure TraversableIdentifierReference where
  name : String
  parent : TraversableExpressionParent
deriving DecidableEq, Repr

/-- Modelled from the spec: `TraversableStringLiteral`. -/
structure TraversableStringLiteral where
  value : String
  parent : TraversableExpressionParent
deriving DecidableEq, Repr

/-- Modelled from the spec: `TraversableBinaryExpression`. -/
structure TraversableBinaryExpression where
  left : TraversableExpression
  operator : BinaryOperator
  right : TraversableExpression
  parent : TraversableExpressionParent
deriving DecidableEq, Repr

/-- Modelled from the spec: `TraversableUnaryExpression`. -/
structure TraversableUnaryExpression where
  operator : UnaryOperator
  argument : TraversableExpression
  parent : TraversableExpressionParent
deriving DecidableEq, Repr

/-- Modelled from the spec: `TraversableExpressionStatement`. -/
structure TraversableExpressionStatement where
  expression : TraversableExpression
  parent : TraversableStatementParent
deriving DecidableEq, Repr

/-- Modelled from the spec: `TraversableProgram`. -/
structure TraversableProgram where
  body : List TraversableStatement
deriving DecidableEq, Repr

/-- One node of the traversable view of the arena. -/
inductive TraversableNode
  | Ident (i : TraversableIdentifierReference)
  | Str (s : TraversableStringLiteral)
  | Binary (b : TraversableBinaryExpression)
  | Unary (u : TraversableUnaryExpression)
  | ExprStmt (e : TraversableExpressionStatement)
  | Prog (p : TraversableProgram)
deriving DecidableEq, Repr

/-- The owning-to-traversable reinterpretation of a parent tag: identical
discriminants, identical payloads (the transmute at src/traverse.rs
line 39). -/
def toTravExprParent : Ghost.ExpressionParent → TraversableExpressionParent
  | .None => .None
  | .ExpressionStatement id => .ExpressionStatement id
  | .BinaryExpressionLeft id => .BinaryExpressionLeft id
  | .BinaryExpressionRight id => .BinaryExpressionRight id
  | .UnaryExpression id => .UnaryExpression id

/-- The traversable-to-owning reinterpretation of a parent tag. -/
def ofTravExprParent : TraversableExpressionParent → Ghost.ExpressionParent
  | .None => .None
  | .ExpressionStatement id => .ExpressionStatement id
  | .BinaryExpressionLeft id => .BinaryExpressionLeft id
  | .BinaryExpressionRight id => .BinaryExpressionRight id
  | .UnaryExpression id => .UnaryExpression id

/-- Owning-to-traversable reinterpretation of a statement parent tag. -/
def toTravStmtParent : Ghost.StatementParent → TraversableStatementParent
  | .None => .None
  | .Program id => .Program id

/-- Traversable-to-owning reinterpretation of a statement parent tag. -/
def ofTravStmtParent : TraversableStatementParent → Ghost.StatementParent
  | .None => .None
  | .Program id => .Program id

/-- Owning-to-traversable reinterpretation of an expression link. -/
def toTravExpr : Ghost.Expression → TraversableExpression
  | .Identifier id => .Identifier id
  | .StringLiteral id => .StringLiteral id
  | .BinaryExpression id => .BinaryExpression id
  | .UnaryExpression id => .UnaryExpression id

/-- Traversable-to-owning reinterpretation of an expression link. -/
def ofTravExpr : TraversableExpression → Ghost.Expression
  | .Identifier id => .Identifier id
  | .StringLiteral id => .StringLiteral id
  | .BinaryExpression id => .BinaryExpression id
  | .UnaryExpression id => .UnaryExpression id

/-- Owning-to-traversable reinterpretation of a statement link. -/
def toTravStmt : Ghost.Statement → TraversableStatement
  | .ExpressionStatement id => .ExpressionStatement id

/-- Traversable-to-owning reinterpretation of a statement link. -/
def ofTravStmt : TraversableStatement → Ghost.Statement
  | .ExpressionStatement id => .ExpressionStatement id

/-- Owning-to-traversable reinterpretation of one node: field order and
discriminant are preserved, no payload is rebuilt beyond the mirror
constructor. -/
def toTravNode : Ghost.Node → TraversableNode
  | .Ident i => .Ident { name := i.name, parent := toTravExprParent i.parent }
  | .Str s => .Str { value := s.value, parent := toTravExprParent s.parent }
  | .Binary b => .Binary
      { left := toTravExpr b.left, operator := b.operator,
        right := toTravExpr b.right, parent := toTravExprParent b.parent }
  | .Unary u => .Unary
      { operator := u.operator, argument := toTravExpr u.argument,
        parent := toTravExprParent u.parent }
  | .ExprStmt e => .ExprStmt
      { expression := toTravExpr e.expression, parent := toTravStmtParent e.parent }
  | .Prog p => .Prog { body := p.body.map toTravStmt }

/-- Traversable-to-owning reinterpretation of one node. -/
def ofTravNode : TraversableNode → Ghost.Node
  | .Ident i => .Ident { name := i.name, parent := ofTravExprParent i.parent }
  | .Str s => .Str { value := s.value, parent := ofTravExprParent s.parent }
  | .Binary b => .Binary
      { left := ofTravExpr b.left, operator := b.operator,
        right := ofTravExpr b.right, parent := ofTravExprParent b.parent }
  | .Unary u => .Unary
      { operator := u.operator, argument := ofTravExpr u.argument,
        parent := ofTravExprParent u.parent }
  | .ExprStmt e => .ExprStmt
      { expression := ofTravExpr e.expression, parent := ofTravStmtParent e.parent }
  | .Prog p => .Prog { body := p.body.map ofTravStmt }

/-- The whole-tree conversion the transform driver performs on entry
(src/traverse.rs lines 34-40): every node of the arena reinterpreted in
place. -/
def toTravArena (a : Ghost.Arena) : List TraversableNode :=
  a.map toTravNode

/-- The whole-tree conversion back to the owning view on exit of the
transform driver (src/traverse.rs lines 44-50). -/
def ofTravArena (t : List TraversableNode) : Ghost.Arena :=
  t.map ofTravNode

/-! ## General list lemmas -/

/-- Writing back the value already stored at an index leaves a list
unchanged. -/
theorem list_set_same {α : Type} (l : List α) :
    ∀ (n : Nat) (x : α), l.get? n = some x → l.set n x = l := by
  induction l with
  | nil => intro n x h; cases n <;> simp at h
  | cons a t ih =>
    intro n x h
    cases n with
    | zero => simp at h; simp [h]
    | succ m =>
      simp at h
      simp [ih m x (by simpa using h)]

/-! ## Round trip of the two views -/

/-- Reinterpreting an expression parent tag there and back is the
identity. -/
theorem ofTrav_toTravExprParent (p : Ghost.ExpressionParent) :
    ofTravExprParent (toTravExprParent p) = p := by
  cases p <;> rfl

/-- Reinterpreting a statement parent tag there and back is the identity. -/
theorem ofTrav_toTravStmtParent (p : Ghost.StatementParent) :
    ofTravStmtParent (toTravStmtParent p) = p := by
  cases p <;> rfl

/-- Reinterpreting an expression link there and back is the identity. -/
theorem ofTrav_toTravExpr (e : Ghost.Expression) :
    ofTravExpr (toTravExpr e) = e := by
  cases e <;> rfl

/-- Reinterpreting a statement link there and back is the identity. -/
theorem ofTrav_toTravStmt (s : Ghost.Statement) :
    ofTravStmt (toTravStmt s) = s := by
  cases s <;> rfl

/-- Reinterpreting one node there and back is the identity. -/
theorem ofTrav_toTravNode (n : Ghost.Node) :
    ofTravNode (toTravNode n) = n := by
  cases n <;>
    simp [toTravNode, ofTravNode, ofTrav_toTravExprParent, ofTrav_toTravStmtParent,
      ofTrav_toTravExpr, List.map_map, Function.comp_def, ofTrav_toTravStmt]

/-- Reinterpreting a traversable expression parent tag back and forth is
the identity. -/
theorem toTrav_ofTravExprParent (p : TraversableExpressionParent) :
    toTravExprParent (ofTravExprParent p) = p := by
  cases p <;> rfl

/-- Reinterpreting a traversable statement parent tag back and forth is
the identity. -/
theorem toTrav_ofTravStmtParent (p : TraversableStatementParent) :
    toTravStmtParent (ofTravStmtParent p) = p := by
  cases p <;> rfl

/-- Reinterpreting a traversable expression link back and forth is the
identity. -/
theorem toTrav_ofTravExpr (e : TraversableExpression) :
    toTravExpr (ofTravExpr e) = e := by
  cases e <;> rfl

/-- Reinterpreting a traversable statement link back and forth is the
identity. -/
theorem toTrav_ofTravStmt (s : TraversableStatement) :
    toTravStmt (ofTravStmt s) = s := by
  cases s <;> rfl

/-- Reinterpreting one traversable node back and forth is the identity. -/
theorem toTrav_ofTravNode (n : TraversableNode) :
    toTravNode (ofTravNode n) = n := by
  cases n <;>
    simp [toTravNode, ofTravNode, toTrav_ofTravExprParent, toTrav_ofTravStmtParent,
      toTrav_ofTravExpr, List.map_map, Function.comp_def, toTrav_ofTravStmt]

/-- C7: the owning-to-traversable-to-owning view round trip performed by
the transform driver (src/traverse.rs) is the identity: with no edits in
between, every arena converts to the traversable view and back to a tree
identical handle-for-handle and field-for-field, and conversely; the
conversion is total and preserves every discriminant and field. -/
theorem view_roundtrip_identity :
    (∀ a : Ghost.Arena, ofTravArena (toTravArena a) = a) ∧
    (∀ t : List TraversableNode, toTravArena (ofTravArena t) = t) := by
  constructor <;> intro l <;>
    simp [ofTravArena, toTravArena, List.map_map, Function.comp_def,
      ofTrav_toTravNode, toTrav_ofTravNode]

/-! ## Narrowing a generic node reference -/

/-- C8: narrowing an `AstRef` to an expected kind never yields data of the
wrong kind: each checked accessor `as_K` returns `some` exactly when the
node's `ast_type` is `K`, and each unchecked accessor fails (panics,
modelled `none`) exactly when the node's kind differs from `K`, never
returning a payload of another kind. -/
theorem astref_narrowing_checked (r : AstRef) :
    (r.as_stmt.isSome ↔ r.ast_type = .Stmt) ∧
    (r.as_expr.isSome ↔ r.ast_type = .Expr) ∧
    (r.as_ident.isSome ↔ r.ast_type = .Ident) ∧
    (r.as_str.isSome ↔ r.ast_type = .Str) ∧
    (r.as_binary.isSome ↔ r.ast_type = .Binary) ∧
    (r.as_unary.isSome ↔ r.ast_type = .Unary) ∧
    (r.as_stmt_unchecked = none ↔ r.ast_type ≠ .Stmt) ∧
    (r.as_expr_unchecked = none ↔ r.ast_type ≠ .Expr) ∧
    (r.as_ident_unchecked = none ↔ r.ast_type ≠ .Ident) ∧
    (r.as_str_unchecked = none ↔ r.ast_type ≠ .Str) ∧
    (r.as_binary_unchecked = none ↔ r.ast_type ≠ .Binary) ∧
    (r.as_unary_unchecked = none ↔ r.ast_type ≠ .Unary) := by
  obtain ⟨inner⟩ := r
  cases inner <;>
    simp [AstRef.as_stmt, AstRef.as_expr, AstRef.as_ident, AstRef.as_str,
      AstRef.as_binary, AstRef.as_unary, AstRef.as_stmt_unchecked,
      AstRef.as_expr_unchecked, AstRef.as_ident_unchecked, AstRef.as_str_unchecked,
      AstRef.as_binary_unchecked, AstRef.as_unary_unchecked, AstRef.is,
      AstRef.ast_type]

/-! ## End-to-end scenarios on the arena variant -/

/-- C1: on the hard-coded tree for `typeof foo === 'object'` built by
`parse`, the printer renders `typeof foo === 'object'` before the transform
and `'object' === typeof foo` after one run of `TransformTypeof`. -/
theorem typeof_swap_end_to_end :
    Printer.print 20 parse.2 parse.1 = some "typeof foo === 'object'" ∧
    (TransformTypeof.build 20 parse.1 parse.2).bind (Printer.print 20 parse.2) =
      some "'object' === typeof foo" := by
  constructor <;> rfl

/-- On the scenario-1 tree the second run of `TransformTypeof` is not a
no-op: it swaps the binary expression's operands back, restoring the input
arena exactly (the guard in src/main.rs lines 131-142 checks neither the
occupied slot nor that the right operand is a string literal, so it fires
again on the swapped tree). -/
theorem transform_twice_oscillates :
    (TransformTypeof.build 20 parse.1 parse.2).bind
      (fun ns => TransformTypeof.build 20 ns parse.2) = some parse.1 ∧
    TransformTypeof.build 20 parse.1 parse.2 ≠ some parse.1 := by
  constructor
  · rfl
  · decide

/-- The input tree for `typeof foo === bar` (spec end-to-end scenario 3):
built exactly as `parse` builds scenario 1, with the right operand the
identifier `bar` instead of the string literal `'object'`. -/
def parseTypeofIdent : Nodes × NodeId :=
  let nodes : Nodes := []
  -- `foo`
  let nodes : Nodes := nodes ++ [⟨.Ident { name := "foo", parent := 0 }⟩]
  let ident_id : NodeId := nodes.length - 1
  let nodes : Nodes := nodes ++ [⟨.Expr (.Identifier ident_id)⟩]
  let ident_expr_id : NodeId := nodes.length - 1
  -- `typeof foo`
  let nodes : Nodes := nodes ++ [⟨.Unary { operator := .Typeof, argument := ident_expr_id, parent := 0 }⟩]
  let unary_id : NodeId := nodes.length - 1
  let nodes : Nodes := nodes ++ [⟨.Expr (.UnaryExpression unary_id)⟩]
  let unary_expr_id : NodeId := nodes.length - 1
  let nodes : Nodes := Nodes.patch_ident_parent nodes ident_id unary_id
  -- `bar`
  let nodes : Nodes := nodes ++ [⟨.Ident { name := "bar", parent := 0 }⟩]
  let bar_id : NodeId := nodes.length - 1
  let nodes : Nodes := nodes ++ [⟨.Expr (.Identifier bar_id)⟩]
  let bar_expr_id : NodeId := nodes.length - 1
  -- `typeof foo === bar` (as expression)
  let nodes : Nodes := nodes ++
    [⟨.Binary { operator := .StrictEquality, left := unary_expr_id, right := bar_expr_id, parent := 0 }⟩]
  let binary_id : NodeId := nodes.length - 1
  let nodes : Nodes := Nodes.patch_unary_parent nodes unary_id binary_id
  let nodes : Nodes := Nodes.patch_ident_parent nodes bar_id binary_id
  let nodes : Nodes := nodes ++ [⟨.Expr (.BinaryExpression binary_id)⟩]
  let expr_id : NodeId := nodes.length - 1
  let nodes : Nodes := Nodes.patch_binary_parent nodes binary_id expr_id
  -- `typeof foo === bar` (as statement)
  let nodes : Nodes := nodes ++ [⟨.Stmt (.ExpressionStatement expr_id)⟩]
  let stmt_id : NodeId := nodes.length - 1
  (nodes, stmt_id)

/-- On the tree for `typeof foo === bar`, whose right operand is an
identifier and not a string literal, `TransformTypeof` does not leave the
tree unchanged: its guard (`as_expr().is_some()`, src/main.rs line 138)
accepts any expression node, so the operands are swapped and the tree then
prints as `bar === typeof foo`. -/
theorem typeof_ident_right_swapped :
    TransformTypeof.build 20 parseTypeofIdent.1 parseTypeofIdent.2 ≠
      some parseTypeofIdent.1 ∧
    (TransformTypeof.build 20 parseTypeofIdent.1 parseTypeofIdent.2).bind
      (Printer.print 20 parseTypeofIdent.2) = some "bar === typeof foo" := by
  constructor
  · decide
  · rfl

/-! ## Parent consistency in the slot-tag variant -/

/-- C5: parent consistency holds on the tree built by `parse`
(src/parser.rs) and is preserved by `TransformTypeof`: before and after the
transform, every non-root node's parent tag resolves to the parent node and
the field the tag names holds the node's own handle. -/
theorem parse_parent_consistency_preserved :
    Ghost.parentConsistent Ghost.parse.1 = true ∧
    (Ghost.run 20 (.stmt (.ExpressionStatement 4)) Ghost.parse.1).map
      Ghost.parentConsistent = some true := by
  constructor <;> rfl

/-! ## Frame property of the transform (arena variant) -/

/-- The projection forgetting only the `left` and `right` fields of binary
nodes: two arenas agree under it exactly when they have the same length and
agree on every node's kind, operators, names, literal values and parent
handles. -/
def eraseLR (r : AstRef) : AstRef :=
  match r.inner with
  | .Binary b => ⟨.Binary { b with left := 0, right := 0 }⟩
  | k => ⟨k⟩

/-- The swap performed by the transform hook changes nothing the projection
`eraseLR` keeps. -/
theorem swap_binary_map_eraseLR (ns ns' : Nodes) (p : NodeId)
    (h : Nodes.swap_binary ns p = some ns') :
    ns'.map eraseLR = ns.map eraseLR := by
  unfold Nodes.swap_binary at h
  split at h
  case _ b heq =>
    cases h
    rw [List.map_set]
    refine list_set_same _ p _ ?_
    rw [List.get?_map, heq]
    rfl
  case _ => exact Option.noConfusion h

/-- Every run of the `TransformTypeof` visitor preserves the `eraseLR`
projection of the arena: the only mutation on any path is the left/right
swap of one binary node. -/
theorem ttRun_frame :
    ∀ (fuel : Nat) (t : VisitTarget) (ns : Nodes) (id : NodeId) (ns' : Nodes),
      ttRun fuel t ns id = some ns' → ns'.map eraseLR = ns.map eraseLR := by
  intro fuel
  induction fuel with
  | zero => intro t ns id ns' h; exact Option.noConfusion h
  | succ n ih =>
    intro t ns id ns' h
    cases t with
    | stmt =>
      simp only [ttRun] at h
      split at h
      · exact ih _ _ _ _ h
      · exact Option.noConfusion h
    | expr =>
      simp only [ttRun] at h
      split at h
      · cases h; rfl
      · cases h; rfl
      · exact ih _ _ _ _ h
      · exact ih _ _ _ _ h
      · exact Option.noConfusion h
    | binary =>
      simp only [ttRun] at h
      split at h
      · obtain ⟨ns1, h1, h2⟩ := Option.bind_eq_some.mp h
        exact (ih _ _ _ _ h2).trans (ih _ _ _ _ h1)
      · exact Option.noConfusion h
    | unary =>
      simp only [ttRun] at h
      split at h
      · exact Option.noConfusion h
      case _ node _ =>
        split at h
        · cases h; rfl
        · split at h
          · exact Option.noConfusion h
          · split at h
            · cases h; rfl
            · split at h
              · split at h
                · exact Option.noConfusion h
                · split at h
                  · exact Option.noConfusion h
                  case _ ns1 heq =>
                    refine (ih _ _ _ _ h).trans ?_
                    split at heq
                    · exact swap_binary_map_eraseLR ns ns1 _ heq
                    · cases heq; rfl
              · cases h; rfl

/-- C10: running `TransformTypeof` modifies at most the left and right
fields of binary nodes: the arena's length and, for every node, its kind,
operators, identifier name, literal value and parent handle are unchanged
by the transform. -/
theorem transform_frame_binary_lr_only (fuel : Nat) (ns : Nodes) (id : NodeId)
    (ns' : Nodes) (h : TransformTypeof.build fuel ns id = some ns') :
    ns'.length = ns.length ∧ ns'.map eraseLR = ns.map eraseLR := by
  have hm := ttRun_frame fuel .stmt ns id ns' h
  refine ⟨?_, hm⟩
  have hl := congrArg List.length hm
  simpa using hl

/-- The arena left by one transform run on the scenario-1 tree: only the
binary node's left/right changed. -/
def ttAfter : Nodes :=
  [⟨.Ident { name := "foo", parent := 2 }⟩,
   ⟨.Expr (.Identifier 0)⟩,
   ⟨.Unary { operator := .Typeof, argument := 1, parent := 6 }⟩,
   ⟨.Expr (.UnaryExpression 2)⟩,
   ⟨.Str { value := "object", parent := 6 }⟩,
   ⟨.Expr (.StringLiteral 4)⟩,
   ⟨.Binary { left := 5, operator := .StrictEquality, right := 3, parent := 7 }⟩,
   ⟨.Expr (.BinaryExpression 6)⟩,
   ⟨.Stmt (.ExpressionStatement 7)⟩]

/-- Witness for the frame property at the scenario-1 tree. -/
theorem transform_frame_binary_lr_only_witness :
    TransformTypeof.build 20 parse.1 parse.2 = some ttAfter ∧
    (ttAfter.length = parse.1.length ∧ ttAfter.map eraseLR = parse.1.map eraseLR) :=
  ⟨rfl, transform_frame_binary_lr_only 20 parse.1 parse.2 ttAfter rfl⟩

/-! ## Canonical rendering of the printer -/

/-- The unary rendering table as the spec states it (section 6): prefixes
with a trailing space for the keyword forms only; named `canonical*` to be
compared with the printer's code. -/
def canonicalUnaryText : UnaryOperator → String
  | .UnaryNegation => "-"
  | .UnaryPlus => "+"
  | .LogicalNot => "!"
  | .BitwiseNot => "~"
  | .Typeof => "typeof "
  | .Void => "void "
  | .Delete => "delete "

/-- The binary rendering table as the spec states it (section 6). -/
def canonicalBinaryText : BinaryOperator → String
  | .Equality => "=="
  | .StrictEquality => "==="

/-- C6: the printer renders canonical text: a unary expression is its
operator's prefix (trailing space exactly on the keyword forms) followed by
the argument, a binary expression is left, the operator as `==` or `===`
with one space on each side, then right, and a string literal is its value
wrapped in single quotes. -/
theorem printer_canonical_rendering
    (fuel : Nat) (ns : Nodes) (idU idB idS : NodeId)
    (u : UnaryExpression) (b : BinaryExpression) (s : StringLiteral)
    (hu : ns.get_node idU = some ⟨.Unary u⟩)
    (hb : ns.get_node idB = some ⟨.Binary b⟩)
    (hs : ns.get_node idS = some ⟨.Str s⟩) :
    printRun (fuel+1) .unary ns idU =
      (printRun fuel .expr ns u.argument).map
        (fun t => canonicalUnaryText u.operator ++ t) ∧
    printRun (fuel+1) .binary ns idB =
      (printRun fuel .expr ns b.left).bind (fun sl =>
        (printRun fuel .expr ns b.right).map (fun sr =>
          sl ++ " " ++ canonicalBinaryText b.operator ++ " " ++ sr)) ∧
    printRun (fuel+1) .strLit ns idS = some ("'" ++ s.value ++ "'") := by
  obtain ⟨uop, uarg, upar⟩ := u
  obtain ⟨bl, bop, br, bp⟩ := b
  obtain ⟨sv, sp⟩ := s
  refine ⟨?_, ?_, ?_⟩
  · simp only [printRun, hu, Option.some_bind]
    cases uop <;>
      simp [AstRef.as_unary, AstRef.is, AstRef.ast_type, AstRef.as_unary_unchecked,
        canonicalUnaryText]
  · simp only [printRun, hb, Option.some_bind]
    cases bop <;>
      simp [AstRef.as_binary, AstRef.is, AstRef.ast_type, AstRef.as_binary_unchecked,
        canonicalBinaryText]
  · simp only [printRun, hs, Option.some_bind]
    simp [AstRef.as_str, AstRef.is, AstRef.ast_type, AstRef.as_str_unchecked]

/-- Witness for the canonical rendering on the scenario-1 tree: the unary
node 2, the binary node 6 and the string node 4. -/
theorem printer_canonical_rendering_witness :
    printRun 20 .unary parse.1 2 =
      (printRun 19 .expr parse.1 1).map (fun t => canonicalUnaryText .Typeof ++ t) ∧
    printRun 20 .binary parse.1 6 =
      (printRun 19 .expr parse.1 3).bind (fun sl =>
        (printRun 19 .expr parse.1 5).map (fun sr =>
          sl ++ " " ++ canonicalBinaryText .StrictEquality ++ " " ++ sr)) ∧
    printRun 20 .strLit parse.1 4 = some ("'" ++ "object" ++ "'") :=
  printer_canonical_rendering 19 parse.1 2 6 4
    { operator := .Typeof, argument := 1, parent := 6 }
    { left := 3, operator := .StrictEquality, right := 5, parent := 7 }
    { value := "object", parent := 6 } rfl rfl rfl

/-! ## Handles carry no arena identity -/

/-- Counterexample for C9: a handle from a foreign arena is served silently
when its index is in range.  Handle 4 is issued by `parse` for its
string-literal node (`str_id`, src/main.rs line 85: the node holding
`'object'`).  Used with the arena of `parseTypeofIdent` — a different arena
that `parse` never touched — `get_node` neither panics nor is prevented: it
returns that arena's node 4, the identifier `bar`, data belonging to a
different node than the one the handle names in its own arena.  `NodeId`
holds only a `usize` (its `PhantomData` lifetime is covariant, not a brand),
so the arena cannot tell the foreign handle apart. -/
theorem get_node_foreign_handle_counterexample :
    Nodes.get_node parseTypeofIdent.1 4 = some ⟨.Ident { name := "bar", parent := 6 }⟩ ∧
    Nodes.get_node parse.1 4 = some ⟨.Str { value := "object", parent := 6 }⟩ ∧
    Nodes.get_node parseTypeofIdent.1 4 ≠ none := by
  refine ⟨rfl, rfl, ?_⟩
  intro h
  exact Option.noConfusion h

/-- C9 (amended): `Nodes::get_node` consults nothing but the handle's index:
it fails (the index-out-of-bounds panic, modelled `none`) exactly when the
index is at or beyond the arena's length, and for every in-range index —
whether the handle was issued by this arena, by a foreign arena, or forged
with `NodeId::new` — it silently returns the node stored at that index. -/
theorem get_node_checks_only_the_index (ns : Nodes) (id : NodeId) :
    (ns.get_node id = none ↔ ns.length ≤ id) ∧
    ((ns.get_node id).isSome ↔ id < ns.length) := by
  unfold Nodes.get_node
  refine ⟨List.get?_eq_none, ?_⟩
  rw [Option.isSome_iff_ne_none, Ne, List.get?_eq_none, Nat.not_le]

/-! ## Structural-edit consistency (slot-tag variant) -/

/-- Reachability transports along membership-equality of the child-handle
lists. -/
theorem reaches_congr {a a' : Ghost.Arena}
    (hc : ∀ x y : Nat, y ∈ Ghost.childHandles a' x ↔ y ∈ Ghost.childHandles a x)
    (root x : Nat) : Ghost.Reaches a' root x ↔ Ghost.Reaches a root x := by
  constructor <;> intro h
  · induction h with
    | refl => exact .refl
    | step hr hm ih => exact .step ih ((hc _ _).mp hm)
  · induction h with
    | refl => exact .refl
    | step hr hm ih => exact .step ih ((hc _ _).mpr hm)

/-- C4: when `TransformTypeof` performs its edit on a binary node `b` whose
guard holds — the unary operand sits in the left slot, the binary's operator
is an equality, the right operand is a string literal — the edit swaps the
binary's left and right fields and swaps the two operands' parent tags
accordingly: afterwards the set of handles reachable from any root is
unchanged, and each swapped operand's tag names the slot (left or right) it
now occupies. -/
theorem typeof_edit_preserves_reachable_and_tags
    (a : Ghost.Arena) (uid b rt root : Nat)
    (u : Ghost.UnaryExpression) (bin : Ghost.BinaryExpression) (s : Ghost.StringLiteral)
    (hu : a.get? uid = some (.Unary u))
    (hop : u.operator = .Typeof)
    (hslot : u.parent = .BinaryExpressionLeft b)
    (hb : a.get? b = some (.Binary bin))
    (hbop : bin.operator = .Equality ∨ bin.operator = .StrictEquality)
    (hleft : bin.left.target = uid)
    (hright : bin.right.target = rt)
    (hs : a.get? rt = some (.Str s))
    (h1 : uid ≠ b) (h2 : rt ≠ b) (h3 : uid ≠ rt) :
    (∀ x, Ghost.Reaches (Ghost.typeofEdit a b) root x ↔ Ghost.Reaches a root x) ∧
    (Ghost.typeofEdit a b).get? b =
      some (.Binary { bin with left := bin.right, right := bin.left }) ∧
    (Ghost.typeofEdit a b).get? uid =
      some (.Unary { u with parent := .BinaryExpressionRight b }) ∧
    (Ghost.typeofEdit a b).get? rt =
      some (.Str { s with parent := .BinaryExpressionLeft b }) := by
  have ha1u : (a.set b (.Binary { bin with left := bin.right, right := bin.left })).get? uid =
      some (.Unary u) := by
    rw [List.get?_set_ne _ _ (h1.symm)]
    exact hu
  have ha2rt : ((a.set b (.Binary { bin with left := bin.right, right := bin.left })).set uid
      (.Unary { u with parent := .BinaryExpressionRight b })).get? rt = some (.Str s) := by
    rw [List.get?_set_ne _ _ h3, List.get?_set_ne _ _ (h2.symm)]
    exact hs
  have hedit : Ghost.typeofEdit a b =
      ((a.set b (.Binary { bin with left := bin.right, right := bin.left })).set uid
        (.Unary { u with parent := .BinaryExpressionRight b })).set rt
        (.Str { s with parent := .BinaryExpressionLeft b }) := by
    simp only [Ghost.typeofEdit, hb]
    simp only [hleft, hright]
    simp only [Ghost.setExprParent, ha1u, ha2rt]
  have hgb : (Ghost.typeofEdit a b).get? b =
      some (.Binary { bin with left := bin.right, right := bin.left }) := by
    rw [hedit, List.get?_set_ne _ _ h2, List.get?_set_ne _ _ h1, List.get?_set, hb]
    simp
  have hgu : (Ghost.typeofEdit a b).get? uid =
      some (.Unary { u with parent := .BinaryExpressionRight b }) := by
    rw [hedit, List.get?_set_ne _ _ (h3.symm), List.get?_set, ha1u]
    simp
  have hgrt : (Ghost.typeofEdit a b).get? rt =
      some (.Str { s with parent := .BinaryExpressionLeft b }) := by
    rw [hedit, List.get?_set, ha2rt]
    simp
  refine ⟨?_, hgb, hgu, hgrt⟩
  intro x0
  refine reaches_congr (fun x y => ?_) root x0
  by_cases hxb : x = b
  · subst hxb
    simp only [Ghost.childHandles, hgb, hb]
    simp only [List.mem_cons, List.not_mem_nil, or_false]
    rw [hleft, hright]
    constructor
    · rintro (h | h) <;> [exact Or.inr h; exact Or.inl h]
    · rintro (h | h) <;> [exact Or.inr h; exact Or.inl h]
  by_cases hxu : x = uid
  · subst hxu
    simp only [Ghost.childHandles, hgu, hu]
  by_cases hxr : x = rt
  · subst hxr
    simp only [Ghost.childHandles, hgrt, hs]
  · have hgx : (Ghost.typeofEdit a b).get? x = a.get? x := by
      rw [hedit, List.get?_set_ne _ _ (fun he => hxr he.symm),
        List.get?_set_ne _ _ (fun he => hxu he.symm),
        List.get?_set_ne _ _ (fun he => hxb he.symm)]
    simp only [Ghost.childHandles, hgx]

/-- Witness for the structural-edit consistency theorem at the tree built by
src/parser.rs: unary node 1 in the left slot of binary node 3, string node 2
on the right, program root 5. -/
theorem typeof_edit_preserves_reachable_and_tags_witness :
    (Ghost.Reaches (Ghost.typeofEdit Ghost.parse.1 3) 5 2 ↔
      Ghost.Reaches Ghost.parse.1 5 2) ∧
    (Ghost.typeofEdit Ghost.parse.1 3).get? 3 =
      some (.Binary { left := .StringLiteral 2, operator := .StrictEquality, right := .UnaryExpression 1, parent := .ExpressionStatement 4 }) ∧
    (Ghost.typeofEdit Ghost.parse.1 3).get? 1 =
      some (.Unary { operator := .Typeof, argument := .Identifier 0, parent := .BinaryExpressionRight 3 }) ∧
    (Ghost.typeofEdit Ghost.parse.1 3).get? 2 =
      some (.Str { value := "object", parent := .BinaryExpressionLeft 3 }) := by
  have h := typeof_edit_preserves_reachable_and_tags Ghost.parse.1 1 3 2 5
    { operator := .Typeof, argument := .Identifier 0, parent := .BinaryExpressionLeft 3 }
    { left := .UnaryExpression 1, operator := .StrictEquality, right := .StringLiteral 2, parent := .ExpressionStatement 4 }
    { value := "object", parent := .BinaryExpressionRight 3 }
    rfl rfl rfl rfl (Or.inr rfl) rfl rfl rfl (by decide) (by decide) (by decide)
  exact ⟨h.1 2, h.2.1, h.2.2.1, h.2.2.2⟩
